import Mathlib

/-!
Verification of the ShareMyLocation server core (shared/schema.ts,
server/storage.ts, server/routes.ts) against its natural-language
specification.

Shallow embedding conventions:
* JavaScript `number` values are modelled by `JsVal`: a finite value is a
  rational, and NaN, +Infinity and -Infinity are explicit constructors;
  `nonNum` stands for any JSON value that is not of type `number`.
* `Date` timestamps are naturals (milliseconds since epoch); `new Date()`
  becomes an explicit `now` argument threaded to each operation that reads
  the clock.
* JavaScript `Map` objects are association lists with `Map.set` /
  `Map.get` / `Map.delete` semantics (insertion order preserved, set on an
  existing key replaces in place); `Set` objects are duplicate-free lists.
* `nanoid` identifier generation is external nondeterminism: freshly
  generated ids are passed in as arguments.
-/

namespace ShareMyLocation

/-- Model of a JavaScript/JSON value in a position where the schema expects
a number: a finite double (as a rational), `NaN`, `Infinity`, `-Infinity`,
or a value that is not of type `number` at all (string, null, missing…). -/
inductive JsVal where
  | fin (q : ℚ)
  | nan
  | inf
  | negInf
  | nonNum
deriving DecidableEq

/-- zod 3 `z.number()` (no `.finite()` refinement, as in
`locationUpdateSchema` and `vehicleUpdateSchema`): the parsed type must be
`number` and not `NaN`; infinite values pass. -/
def zodNumberOk : JsVal → Bool
  | .nan => false
  | .nonNum => false
  | _ => true

/-! ### JavaScript `Map` and `Set` as lists -/

/-- `Map.get k` : first (and, for genuine `Map` states, only) binding. -/
def mget {κ α : Type} [DecidableEq κ] (m : List (κ × α)) (k : κ) : Option α :=
  (m.find? (fun p => p.1 = k)).map (fun p => p.2)

/-- `Map.has k`. -/
def mhas {κ α : Type} [DecidableEq κ] (m : List (κ × α)) (k : κ) : Bool :=
  m.any (fun p => p.1 = k)

/-- `Map.set k v`: replace in place when the key is present, else append. -/
def mset {κ α : Type} [DecidableEq κ] (m : List (κ × α)) (k : κ) (v : α) :
    List (κ × α) :=
  if mhas m k then m.map (fun p => if p.1 = k then (k, v) else p)
  else m ++ [(k, v)]

/-- `Map.delete k` (dropping the returned boolean). -/
def mdel {κ α : Type} [DecidableEq κ] (m : List (κ × α)) (k : κ) :
    List (κ × α) :=
  m.filter (fun p => ¬ p.1 = k)

/-- `Set.add c`. -/
def sadd {α : Type} [DecidableEq α] (l : List α) (c : α) : List α :=
  if c ∈ l then l else l ++ [c]

/-- `Set.delete c`. -/
def sdel {α : Type} [DecidableEq α] (l : List α) (c : α) : List α :=
  l.filter (fun x => ¬ x = c)

/-- When `p.1 ≠ k`, `mset` commutes with cons. -/
theorem mset_cons_ne {κ α : Type} [DecidableEq κ] (p : κ × α)
    (t : List (κ × α)) (k : κ) (v : α) (hp : ¬ p.1 = k) :
    mset (p :: t) k v = p :: mset t k v := by
  simp only [mset, mhas, List.any_cons, List.map_cons]
  have hd : (decide (p.1 = k)) = false := by simp [hp]
  rw [hd]
  simp only [Bool.false_or, if_neg hp]
  split <;> rfl

theorem mget_mset_self {κ α : Type} [DecidableEq κ] (m : List (κ × α))
    (k : κ) (v : α) : mget (mset m k v) k = some v := by
  induction m with
  | nil => simp [mget, mset, mhas]
  | cons p t ih =>
    by_cases hp : p.1 = k
    · have h1 : mhas (p :: t) k = true := by simp [mhas, hp]
      unfold mset
      rw [if_pos h1]
      unfold mget
      simp only [List.map_cons, if_pos hp]
      rw [List.find?_cons_of_pos _ (by simp)]
      rfl
    · rw [mset_cons_ne p t k v hp]
      unfold mget
      rw [List.find?_cons_of_neg _ (by simpa using hp)]
      exact ih

theorem mget_mdel_self {κ α : Type} [DecidableEq κ] (m : List (κ × α))
    (k : κ) : mget (mdel m k) k = none := by
  induction m with
  | nil => rfl
  | cons p t ih =>
    by_cases hp : p.1 = k
    · have h1 : mdel (p :: t) k = mdel t k := by simp [mdel, hp]
      rw [h1]; exact ih
    · have h1 : mdel (p :: t) k = p :: mdel t k := by simp [mdel, hp]
      rw [h1]
      unfold mget
      rw [List.find?_cons_of_neg _ (by simpa using hp)]
      exact ih

theorem mget_mdel_ne {κ α : Type} [DecidableEq κ] (m : List (κ × α))
    (k k' : κ) (h : k' ≠ k) : mget (mdel m k) k' = mget m k' := by
  induction m with
  | nil => rfl
  | cons p t ih =>
    by_cases hp : p.1 = k
    · have h1 : mdel (p :: t) k = mdel t k := by simp [mdel, hp]
      have h2 : ¬ p.1 = k' := by rw [hp]; exact fun hh => h hh.symm
      rw [h1, ih]
      unfold mget
      rw [List.find?_cons_of_neg _ (by simpa using h2)]
    · have h1 : mdel (p :: t) k = p :: mdel t k := by simp [mdel, hp]
      rw [h1]
      by_cases hq : p.1 = k'
      · unfold mget
        rw [List.find?_cons_of_pos _ (by simpa using hq),
          List.find?_cons_of_pos _ (by simpa using hq)]
      · unfold mget
        rw [List.find?_cons_of_neg _ (by simpa using hq),
          List.find?_cons_of_neg _ (by simpa using hq)]
        exact ih

/-- Keys after `mset` when the key was already present: unchanged. -/
theorem keys_mset_pos {κ α : Type} [DecidableEq κ] (m : List (κ × α))
    (k : κ) (v : α) (h : mhas m k = true) :
    (mset m k v).map Prod.fst = m.map Prod.fst := by
  unfold mset
  rw [if_pos h]
  clear h
  induction m with
  | nil => rfl
  | cons p t ih =>
    simp only [List.map_cons, List.cons.injEq]
    exact ⟨by by_cases hp : p.1 = k <;> simp [hp], ih⟩

/-- Keys after `mset` when the key was absent: appended. -/
theorem keys_mset_neg {κ α : Type} [DecidableEq κ] (m : List (κ × α))
    (k : κ) (v : α) (h : mhas m k = false) :
    (mset m k v).map Prod.fst = m.map Prod.fst ++ [k] := by
  unfold mset
  rw [if_neg (by rw [h]; exact Bool.false_ne_true)]
  simp

theorem not_mem_keys_of_mhas_false {κ α : Type} [DecidableEq κ]
    (m : List (κ × α)) (k : κ) (h : mhas m k = false) :
    k ∉ m.map Prod.fst := by
  unfold mhas at h
  intro hmem
  obtain ⟨p, hp, hpk⟩ := List.mem_map.mp hmem
  have h2 : ¬ (m.any fun p => decide (p.1 = k)) = true := by
    rw [h]; exact Bool.false_ne_true
  simp only [List.any_eq_true, decide_eq_true_eq, not_exists, not_and] at h2
  exact h2 p hp hpk

theorem nodup_keys_mset {κ α : Type} [DecidableEq κ] (m : List (κ × α))
    (k : κ) (v : α) (h : (m.map Prod.fst).Nodup) :
    ((mset m k v).map Prod.fst).Nodup := by
  by_cases hk : mhas m k = true
  · rw [keys_mset_pos m k v hk]; exact h
  · rw [keys_mset_neg m k v (by simpa using hk)]
    rw [List.nodup_append]
    refine ⟨h, List.nodup_singleton k, ?_⟩
    intro a ha hb
    simp only [List.mem_singleton] at hb
    subst hb
    exact not_mem_keys_of_mhas_false m a (by simpa using hk) ha

theorem nodup_keys_mdel {κ α : Type} [DecidableEq κ] (m : List (κ × α))
    (k : κ) (h : (m.map Prod.fst).Nodup) :
    ((mdel m k).map Prod.fst).Nodup := by
  unfold mdel
  exact (List.Sublist.map Prod.fst (List.filter_sublist m)).nodup h

/-- Any binding at key `k` after `mset m k v` carries the new value. -/
theorem mem_mset_key_eq {κ α : Type} [DecidableEq κ] (m : List (κ × α))
    (k : κ) (v w : α) (h : (k, w) ∈ mset m k v) : w = v := by
  unfold mset at h
  by_cases hhas : mhas m k = true
  · rw [if_pos hhas] at h
    obtain ⟨p, _, hp⟩ := List.mem_map.mp h
    by_cases hpk : p.1 = k
    · rw [if_pos hpk] at hp
      injection hp with h1 h2
      exact h2.symm
    · rw [if_neg hpk] at hp
      rw [hp] at hpk
      exact absurd rfl hpk
  · rw [if_neg hhas] at h
    rcases List.mem_append.mp h with hm | hm
    · exact absurd (List.mem_map.mpr ⟨(k, w), hm, rfl⟩)
        (not_mem_keys_of_mhas_false m k (by simpa using hhas))
    · simpa using hm

/-! ### Data model (shared/schema.ts) -/

/-- `Location` (`locationSchema`). Optional fields are `Option`;
timestamps are milliseconds since epoch. -/
structure Location where
  id : String
  latitude : JsVal
  longitude : JsVal
  name : Option String
  createdAt : ℕ
  expiresAt : Option ℕ
  isLive : Option Bool
  lastUpdated : Option ℕ
deriving DecidableEq

/-- `InsertLocation` (`insertLocationSchema`); `expiresInMinutes` is
validated by the schema to lie in 1..1440 when present, which is carried
as a hypothesis where it matters. -/
structure InsertLocation where
  latitude : JsVal
  longitude : JsVal
  name : Option String
  isLive : Option Bool
  expiresInMinutes : Option ℕ
deriving DecidableEq

/-- `LocationUpdate` / `VehicleUpdate` payload shape `{latitude, longitude}`,
before or after validation. -/
structure LocationUpdate where
  latitude : JsVal
  longitude : JsVal
deriving DecidableEq

/-- `Fleet` (`fleetSchema`). -/
structure Fleet where
  id : String
  name : String
  createdAt : ℕ
  expiresAt : ℕ
  adminCode : String
deriving DecidableEq

/-- `InsertFleet`. -/
structure InsertFleet where
  name : String
deriving DecidableEq

/-- `Vehicle` (`vehicleSchema`). -/
structure Vehicle where
  id : String
  fleetId : String
  name : String
  color : String
  shareCode : String
  latitude : Option JsVal
  longitude : Option JsVal
  isLive : Bool
  lastUpdated : Option ℕ
deriving DecidableEq

/-- `InsertVehicle` (`insertVehicleSchema`). -/
structure InsertVehicle where
  fleetId : String
  name : String
  color : Option String
deriving DecidableEq

/-- `safeParse` against `locationUpdateSchema` / `vehicleUpdateSchema`
(`z.object({ latitude: z.number(), longitude: z.number() })`): `none`
models a missing or non-object `message.data`. -/
def safeParseUpdate : Option LocationUpdate → Option LocationUpdate
  | none => none
  | some u => if zodNumberOk u.latitude && zodNumberOk u.longitude then some u else none

/-! ### Entity store (server/storage.ts, class MemStorage) -/

/-- The fixed palette `VEHICLE_COLORS`. -/
def VEHICLE_COLORS : List String :=
  ["#ef4444", "#3b82f6", "#22c55e", "#f59e0b",
   "#8b5cf6", "#ec4899", "#06b6d4", "#f97316"]

/-- The three `Map` fields of `MemStorage`. -/
structure MemStorage where
  locations : List (String × Location)
  fleets : List (String × Fleet)
  vehicles : List (String × Vehicle)
deriving DecidableEq

def MemStorage.empty : MemStorage := ⟨[], [], []⟩

/-- `MemStorage.getLocation`: not-found when absent; lazily purges and
returns not-found when `expiresAt` is set and strictly in the past. -/
def getLocation (s : MemStorage) (now : ℕ) (id : String) :
    Option Location × MemStorage :=
  match mget s.locations id with
  | none => (none, s)
  | some loc =>
    match loc.expiresAt with
    | some e =>
      if e < now then (none, { s with locations := mdel s.locations id })
      else (some loc, s)
    | none => (some loc, s)

/-- `MemStorage.createLocation`. The generated `nanoid(10)` is the `id`
argument; `expiresInMinutes || 1440` makes an absent (or zero) value fall
back to 24 hours, and `isLive || false` defaults the live flag. -/
def createLocation (s : MemStorage) (now : ℕ) (id : String)
    (il : InsertLocation) : Location × MemStorage :=
  let expiryMinutes : ℕ :=
    match il.expiresInMinutes with
    | none => 1440
    | some m => if m = 0 then 1440 else m
  let expiresAt := now + expiryMinutes * 60 * 1000
  let loc : Location :=
    { id := id
      latitude := il.latitude
      longitude := il.longitude
      name := il.name
      createdAt := now
      expiresAt := some expiresAt
      isLive := some (il.isLive.getD false)
      lastUpdated := some now }
  (loc, { s with locations := mset s.locations id loc })

/-- `MemStorage.updateLocation`: reads through `getLocation` (so an
absent or expired record yields `undefined`), else overwrites position
fields and the last-update timestamp. -/
def updateLocation (s : MemStorage) (now : ℕ) (id : String)
    (u : LocationUpdate) : Option Location × MemStorage :=
  match (getLocation s now id).1 with
  | none => (none, (getLocation s now id).2)
  | some loc =>
    (some { loc with
        latitude := u.latitude
        longitude := u.longitude
        lastUpdated := some now },
      { (getLocation s now id).2 with
        locations := mset (getLocation s now id).2.locations id
          ({ loc with
            latitude := u.latitude
            longitude := u.longitude
            lastUpdated := some now }) })

/-- `MemStorage.deleteLocation`. -/
def deleteLocation (s : MemStorage) (id : String) : Bool × MemStorage :=
  (mhas s.locations id, { s with locations := mdel s.locations id })

/-- `MemStorage.getFleet`: lazily purges an expired fleet together with
all vehicles whose `fleetId` matches (cascade deletion). -/
def getFleet (s : MemStorage) (now : ℕ) (id : String) :
    Option Fleet × MemStorage :=
  match mget s.fleets id with
  | none => (none, s)
  | some f =>
    if f.expiresAt < now then
      (none,
        { s with
          fleets := mdel s.fleets id
          vehicles := s.vehicles.filter (fun p => ¬ p.2.fleetId = id) })
    else (some f, s)

/-- `MemStorage.getFleetByAdminCode`: linear scan; an expired match is
skipped (without purging). -/
def getFleetByAdminCode (s : MemStorage) (now : ℕ) (adminCode : String) :
    Option Fleet :=
  (s.fleets.map (fun p => p.2)).find?
    (fun f => f.adminCode = adminCode && decide (now ≤ f.expiresAt))

/-- `MemStorage.createFleet`; `id` and `adminCode` are the two `nanoid`
results, expiry is fixed at 24h. -/
def createFleet (s : MemStorage) (now : ℕ) (id adminCode : String)
    (ifl : InsertFleet) : Fleet × MemStorage :=
  let f : Fleet :=
    { id := id
      name := ifl.name
      createdAt := now
      expiresAt := now + 24 * 60 * 60 * 1000
      adminCode := adminCode }
  (f, { s with fleets := mset s.fleets id f })

/-- `MemStorage.getVehicle`: a plain `Map.get`, with no expiry logic. -/
def getVehicle (s : MemStorage) (id : String) : Option Vehicle :=
  mget s.vehicles id

/-- `MemStorage.getVehicleByShareCode`: linear scan over values. -/
def getVehicleByShareCode (s : MemStorage) (shareCode : String) :
    Option Vehicle :=
  (s.vehicles.map (fun p => p.2)).find? (fun v => v.shareCode = shareCode)

/-- `MemStorage.getVehiclesByFleet`: goes through `getFleet` (purging an
expired fleet), then filters values by `fleetId`. -/
def getVehiclesByFleet (s : MemStorage) (now : ℕ) (fleetId : String) :
    List Vehicle × MemStorage :=
  let r := getFleet s now fleetId
  match r.1 with
  | none => ([], r.2)
  | some _ =>
    ((r.2.vehicles.map (fun p => p.2)).filter (fun v => v.fleetId = fleetId),
      r.2)

/-- `MemStorage.createVehicle`; `id` and `shareCode` are the `nanoid`
results. The color falls back to the palette entry indexed by the current
member count mod palette size when `color` is absent (or empty, via `||`). -/
def createVehicle (s : MemStorage) (now : ℕ) (id shareCode : String)
    (iv : InsertVehicle) : Vehicle × MemStorage :=
  let r := getVehiclesByFleet s now iv.fleetId
  let colorIndex := r.1.length % VEHICLE_COLORS.length
  let v : Vehicle :=
    { id := id
      fleetId := iv.fleetId
      name := iv.name
      color :=
        match iv.color with
        | some c => if c = "" then VEHICLE_COLORS.getD colorIndex "" else c
        | none => VEHICLE_COLORS.getD colorIndex ""
      shareCode := shareCode
      latitude := none
      longitude := none
      isLive := false
      lastUpdated := none }
  (v, { r.2 with vehicles := mset r.2.vehicles id v })

/-- `MemStorage.updateVehicle`: plain `Map.get` (no expiry logic), then
overwrite position fields and the last-update timestamp. -/
def updateVehicle (s : MemStorage) (now : ℕ) (id : String)
    (u : LocationUpdate) : Option Vehicle × MemStorage :=
  match mget s.vehicles id with
  | none => (none, s)
  | some v =>
    let updated : Vehicle :=
      { v with
        latitude := some u.latitude
        longitude := some u.longitude
        lastUpdated := some now }
    (some updated, { s with vehicles := mset s.vehicles id updated })

/-- `MemStorage.updateVehicleLiveStatus`. -/
def updateVehicleLiveStatus (s : MemStorage) (now : ℕ) (id : String)
    (isLive : Bool) : Option Vehicle × MemStorage :=
  match mget s.vehicles id with
  | none => (none, s)
  | some v =>
    let updated : Vehicle :=
      { v with isLive := isLive, lastUpdated := some now }
    (some updated, { s with vehicles := mset s.vehicles id updated })

/-- `MemStorage.deleteVehicle`. -/
def deleteVehicle (s : MemStorage) (id : String) : Bool × MemStorage :=
  (mhas s.vehicles id, { s with vehicles := mdel s.vehicles id })

/-! ### HTTP surface needed by the claims (server/routes.ts) -/

/-- The public view of a fleet: `const { adminCode, ...publicFleet } = fleet`.
The type itself has no admin-secret field. -/
structure PublicFleet where
  id : String
  name : String
  createdAt : ℕ
  expiresAt : ℕ
deriving DecidableEq

/-- The rest-spread `{ adminCode, ...publicFleet }` projection. -/
def stripAdminCode (f : Fleet) : PublicFleet :=
  { id := f.id, name := f.name, createdAt := f.createdAt, expiresAt := f.expiresAt }

/-- `GET /api/fleets/:id`: 404 when `getFleet` yields `undefined`, else the
JSON body is the fleet with `adminCode` removed. `none` stands for the 404
response. -/
def apiGetFleetById (s : MemStorage) (now : ℕ) (id : String) :
    Option PublicFleet × MemStorage :=
  match (getFleet s now id).1 with
  | none => (none, (getFleet s now id).2)
  | some f => (some (stripAdminCode f), (getFleet s now id).2)

/-! ### Auxiliary lemmas about the store -/

theorem mget_eq_none_of_not_mem_keys {κ α : Type} [DecidableEq κ]
    (l : List (κ × α)) (k : κ) (h : k ∉ l.map Prod.fst) : mget l k = none := by
  unfold mget
  have hf : l.find? (fun p => decide (p.1 = k)) = none :=
    List.find?_eq_none.mpr (fun x hx => by
      simp only [decide_eq_true_eq]
      intro hk
      exact h (List.mem_map.mpr ⟨x, hx, hk⟩))
  rw [hf]
  rfl

/-- Filtering away the binding of `k` (value-based) removes `k` from the
map, provided keys are duplicate-free. -/
theorem mget_filter_out {κ α : Type} [DecidableEq κ] (l : List (κ × α))
    (q : α → Bool) (k : κ) (v : α) (hnd : (l.map Prod.fst).Nodup)
    (hl : mget l k = some v) (hv : q v = false) :
    mget (l.filter (fun p => q p.2)) k = none := by
  induction l with
  | nil => simp [mget] at hl
  | cons p t ih =>
    have hnd2 := hnd
    simp only [List.map_cons, List.nodup_cons] at hnd2
    by_cases hp : p.1 = k
    · have hv2 : mget (p :: t) k = some p.2 := by
        unfold mget
        rw [List.find?_cons_of_pos _ (by simpa using hp)]
        rfl
      rw [hl] at hv2
      have hpv : p.2 = v := by injection hv2 with h3; exact h3.symm
      have hkt : k ∉ t.map Prod.fst := by rw [← hp]; exact hnd2.1
      have hq : q p.2 = false := by rw [hpv]; exact hv
      rw [List.filter_cons_of_neg (by simp [hq])]
      exact mget_eq_none_of_not_mem_keys _ _ (fun hmem => by
        obtain ⟨x, hx, hxk⟩ := List.mem_map.mp hmem
        exact hkt (List.mem_map.mpr ⟨x, List.mem_of_mem_filter hx, hxk⟩))
    · have hl2 : mget t k = some v := by
        unfold mget at hl
        rwa [List.find?_cons_of_neg _ (by simpa using hp)] at hl
      by_cases hq : q p.2 = true
      · rw [List.filter_cons_of_pos (by simpa using hq)]
        unfold mget
        rw [List.find?_cons_of_neg _ (by simpa using hp)]
        exact ih hnd2.2 hl2
      · rw [List.filter_cons_of_neg (by simpa using hq)]
        exact ih hnd2.2 hl2

theorem mget_cons_pos {κ α : Type} [DecidableEq κ] (p : κ × α)
    (t : List (κ × α)) (k : κ) (hp : p.1 = k) : mget (p :: t) k = some p.2 := by
  unfold mget
  rw [List.find?_cons_of_pos _ (by simpa using hp)]
  rfl

theorem mget_cons_neg {κ α : Type} [DecidableEq κ] (p : κ × α)
    (t : List (κ × α)) (k : κ) (hp : ¬ p.1 = k) : mget (p :: t) k = mget t k := by
  unfold mget
  rw [List.find?_cons_of_neg _ (by simpa using hp)]

/-- Rewriting the value stored at one key through `g` maps the lookup
result through `g`. -/
theorem mget_map_entry {κ α : Type} [DecidableEq κ] (l : List (κ × α))
    (k : κ) (g : α → α) :
    mget (l.map (fun p => if p.1 = k then (p.1, g p.2) else p)) k =
      (mget l k).map g := by
  induction l with
  | nil => rfl
  | cons p t ih =>
    by_cases hp : p.1 = k
    · rw [List.map_cons, if_pos hp, mget_cons_pos _ _ _ hp]
      rw [mget_cons_pos (p.1, g p.2)
        (List.map (fun p => if p.1 = k then (p.1, g p.2) else p) t) k hp]
      rfl
    · rw [List.map_cons, if_neg hp, mget_cons_neg _ _ _ hp,
        mget_cons_neg _ _ _ hp]
      exact ih

/-- When `getLocation` finds a record, the store is untouched and the
record is the stored one. -/
theorem getLocation_some {s : MemStorage} {now : ℕ} {id : String}
    {loc : Location} (h : (getLocation s now id).1 = some loc) :
    (getLocation s now id).2 = s ∧ mget s.locations id = some loc := by
  cases hm : mget s.locations id with
  | none => simp [getLocation, hm] at h
  | some l =>
    cases he : l.expiresAt with
    | none =>
      simp only [getLocation, hm, he] at h
      constructor
      · simp [getLocation, hm, he]
      · exact h
    | some e =>
      by_cases hlt : e < now
      · simp [getLocation, hm, he, hlt] at h
      · simp only [getLocation, hm, he, if_neg hlt] at h
        constructor
        · simp [getLocation, hm, he, hlt]
        · exact h

/-! ### Claim C2: expiry purge and idempotence -/

/-- **C2.** For every record id and time past the record's expiry
timestamp, `get` returns not-found and removes the record, and any
subsequent `get` on the same key (at any time) also returns not-found
without further state change: the purge is idempotent. Stated for the two
expiring record kinds, locations (`getLocation`) and fleets (`getFleet`). -/
theorem expired_get_purges_and_is_idempotent
    (s : MemStorage) (now : ℕ) (id : String) :
    (∀ loc e, mget s.locations id = some loc → loc.expiresAt = some e →
      e < now →
      (getLocation s now id).1 = none ∧
      mget (getLocation s now id).2.locations id = none ∧
      ∀ now2, getLocation (getLocation s now id).2 now2 id =
        (none, (getLocation s now id).2)) ∧
    (∀ f, mget s.fleets id = some f → f.expiresAt < now →
      (getFleet s now id).1 = none ∧
      mget (getFleet s now id).2.fleets id = none ∧
      ∀ now2, getFleet (getFleet s now id).2 now2 id =
        (none, (getFleet s now id).2)) := by
  constructor
  · intro loc e hl he hlt
    have h1 : getLocation s now id =
        (none, { s with locations := mdel s.locations id }) := by
      simp [getLocation, hl, he, hlt]
    refine ⟨by rw [h1], ?_, ?_⟩
    · rw [h1]
      exact mget_mdel_self _ _
    · intro now2
      rw [h1]
      simp [getLocation, mget_mdel_self]
  · intro f hf hlt
    have h1 : getFleet s now id =
        (none,
          { s with
            fleets := mdel s.fleets id
            vehicles := s.vehicles.filter (fun p => ¬ p.2.fleetId = id) }) := by
      simp [getFleet, hf, hlt]
    refine ⟨by rw [h1], ?_, ?_⟩
    · rw [h1]
      exact mget_mdel_self _ _
    · intro now2
      rw [h1]
      simp [getFleet, mget_mdel_self]

/-- Concrete store for the C2 witness: one expired location and one
expired fleet, both stored under key "K". -/
def locW2 : Location :=
  { id := "K", latitude := .fin 1, longitude := .fin 2, name := none,
    createdAt := 0, expiresAt := some 50, isLive := some true,
    lastUpdated := some 0 }

def fleetW2 : Fleet :=
  { id := "K", name := "f", createdAt := 0, expiresAt := 60,
    adminCode := "a" }

def storeW2 : MemStorage :=
  { locations := [("K", locW2)], fleets := [("K", fleetW2)], vehicles := [] }

/-- Witness for C2 at a concrete expired store and `now = 100`. -/
theorem expired_get_purges_and_is_idempotent_witness :
    (getLocation storeW2 100 "K").1 = none ∧
    mget (getLocation storeW2 100 "K").2.locations "K" = none ∧
    (getFleet storeW2 100 "K").1 = none := by
  have h := expired_get_purges_and_is_idempotent storeW2 100 "K"
  have h1 := h.1 locW2 50 (by decide) (by decide) (by decide)
  have h2 := h.2 fleetW2 (by decide) (by decide)
  exact ⟨h1.1, h1.2.1, h2.1⟩

/-! ### Claim C3: fleet expiry and vehicle reachability -/

/-- Concrete store for the C3 counterexample: fleet "F1" expired at 100,
with member vehicle "V1". -/
def fleetX3 : Fleet :=
  { id := "F1", name := "Resort Buggies", createdAt := 0, expiresAt := 100,
    adminCode := "adm" }

def vehX3 : Vehicle :=
  { id := "V1", fleetId := "F1", name := "Buggy 1", color := "#ef4444",
    shareCode := "sc1", latitude := none, longitude := none, isLive := false,
    lastUpdated := none }

def storeX3 : MemStorage :=
  { locations := [], fleets := [("F1", fleetX3)], vehicles := [("V1", vehX3)] }

/-- **C3, counterexample.** The claim says that once a fleet's expiry
timestamp has passed, `getVehicle` on any member vehicle returns
not-found. In `storeX3` the fleet "F1" is stored and already expired
relative to time 200, its member vehicle "V1" is stored, yet `getVehicle`
(which performs no fleet-expiry check and takes no clock at all) still
returns the vehicle: nothing is unreachable until some fleet read
triggers the lazy purge. -/
theorem getVehicle_ignores_fleet_expiry :
    mget storeX3.fleets "F1" = some fleetX3 ∧
    fleetX3.expiresAt < 200 ∧
    vehX3.fleetId = "F1" ∧
    getVehicle storeX3 "V1" = some vehX3 := by
  refine ⟨by decide, by decide, by decide, by decide⟩

/-- **C3, amended.** Once a fleet's expiry timestamp has passed (there is
no fleet-delete operation in the store), a `getVehiclesByFleet` call on
the fleet id returns the empty list and purges the fleet and all member
vehicles, after which `getVehicle` on any member returns not-found;
before such a purging access, `getVehicle` still returns the vehicle
(see the counterexample). -/
theorem fleet_expiry_purge_makes_vehicles_unreachable
    (s : MemStorage) (now : ℕ) (fid : String) (f : Fleet)
    (hnd : (s.vehicles.map Prod.fst).Nodup)
    (hf : mget s.fleets fid = some f) (hexp : f.expiresAt < now) :
    (getVehiclesByFleet s now fid).1 = [] ∧
    mget (getVehiclesByFleet s now fid).2.fleets fid = none ∧
    (∀ vid v, mget s.vehicles vid = some v → v.fleetId = fid →
      getVehicle (getVehiclesByFleet s now fid).2 vid = none) := by
  have h1 : getFleet s now fid =
      (none,
        { s with
          fleets := mdel s.fleets fid
          vehicles := s.vehicles.filter (fun p => ¬ p.2.fleetId = fid) }) := by
    simp [getFleet, hf, hexp]
  have h2 : getVehiclesByFleet s now fid =
      ([],
        { s with
          fleets := mdel s.fleets fid
          vehicles := s.vehicles.filter (fun p => ¬ p.2.fleetId = fid) }) := by
    simp [getVehiclesByFleet, h1]
  refine ⟨by rw [h2], ?_, ?_⟩
  · rw [h2]
    exact mget_mdel_self _ _
  · intro vid v hv hvf
    rw [h2]
    unfold getVehicle
    exact mget_filter_out s.vehicles (fun w => decide (¬ w.fleetId = fid))
      vid v hnd hv (by simp [hvf])

/-- Witness for the amended C3 at the concrete expired store. -/
theorem fleet_expiry_purge_makes_vehicles_unreachable_witness :
    (getVehiclesByFleet storeX3 200 "F1").1 = [] ∧
    getVehicle (getVehiclesByFleet storeX3 200 "F1").2 "V1" = none := by
  have h := fleet_expiry_purge_makes_vehicles_unreachable storeX3 200 "F1"
    fleetX3 (by decide) (by decide) (by decide)
  exact ⟨h.1, h.2.2 "V1" vehX3 (by decide) (by decide)⟩

/-! ### Claim C5: deterministic palette color assignment -/

/-- **C5.** When `createVehicle` is called without an explicit color and
the owning fleet is stored and not expired, the new vehicle's color is
the palette entry at index (current number of member vehicles at creation
time) mod 8, the palette size. Creation order therefore determines the
colors: the first vehicle gets index 0, the second index 1 (see the
witness). -/
theorem createVehicle_color_is_palette_mod_count
    (s : MemStorage) (now : ℕ) (id code : String) (iv : InsertVehicle)
    (f : Fleet) (hf : mget s.fleets iv.fleetId = some f)
    (hexp : ¬ f.expiresAt < now) (hcol : iv.color = none) :
    VEHICLE_COLORS.length = 8 ∧
    (createVehicle s now id code iv).1.color =
      VEHICLE_COLORS.getD
        (((s.vehicles.map (fun p => p.2)).filter
            (fun v => v.fleetId = iv.fleetId)).length % 8) "" := by
  have h1 : getFleet s now iv.fleetId = (some f, s) := by
    simp [getFleet, hf, hexp]
  have h2 : getVehiclesByFleet s now iv.fleetId =
      ((s.vehicles.map (fun p => p.2)).filter
        (fun v => v.fleetId = iv.fleetId), s) := by
    simp [getVehiclesByFleet, h1]
  have hlen : VEHICLE_COLORS.length = 8 := rfl
  refine ⟨hlen, ?_⟩
  simp [createVehicle, h2, hcol, hlen]

/-- Store for the C5 witness: live fleet "F" with no vehicles yet. -/
def fleetW5 : Fleet :=
  { id := "F", name := "Resort Buggies", createdAt := 0,
    expiresAt := 86400000, adminCode := "adm5" }

def storeW5 : MemStorage :=
  { locations := [], fleets := [("F", fleetW5)], vehicles := [] }

def insertW5a : InsertVehicle := { fleetId := "F", name := "Buggy 1", color := none }

def insertW5b : InsertVehicle := { fleetId := "F", name := "Buggy 2", color := none }

/-- Witness for C5: creating two vehicles in order yields palette index 0
("#ef4444") then palette index 1 ("#3b82f6"). -/
theorem createVehicle_color_is_palette_mod_count_witness :
    (createVehicle storeW5 10 "V1" "s1" insertW5a).1.color = "#ef4444" ∧
    (createVehicle (createVehicle storeW5 10 "V1" "s1" insertW5a).2
      20 "V2" "s2" insertW5b).1.color = "#3b82f6" := by
  have ha := createVehicle_color_is_palette_mod_count storeW5 10 "V1" "s1"
    insertW5a fleetW5 (by decide) (by decide) (by decide)
  have hb := createVehicle_color_is_palette_mod_count
    (createVehicle storeW5 10 "V1" "s1" insertW5a).2 20 "V2" "s2"
    insertW5b fleetW5 (by decide) (by decide) (by decide)
  refine ⟨?_, ?_⟩
  · rw [ha.2]; decide
  · rw [hb.2]; decide

/-! ### Claim C7: updateLocation contract and frame -/

/-- **C7.** `updateLocation` returns not-found when the record is absent
or expired and leaves the store unchanged apart from the expiry purge
performed by the embedded `getLocation`; otherwise it overwrites exactly
latitude, longitude and the last-update timestamp, preserving id, name,
creation timestamp, expiry timestamp and live flag, and touches only the
`locations` map entry of the record. -/
theorem updateLocation_overwrites_position_only
    (s : MemStorage) (now : ℕ) (id : String) (u : LocationUpdate) :
    ((getLocation s now id).1 = none →
      updateLocation s now id u = (none, (getLocation s now id).2)) ∧
    (∀ loc, (getLocation s now id).1 = some loc →
      updateLocation s now id u =
        (some { loc with latitude := u.latitude, longitude := u.longitude,
                         lastUpdated := some now },
         { s with locations := (mset s.locations id
            { loc with latitude := u.latitude, longitude := u.longitude,
                       lastUpdated := some now }) })) := by
  constructor
  · intro h
    simp only [updateLocation, h]
  · intro loc h
    obtain ⟨hstate, hstored⟩ := getLocation_some h
    simp only [updateLocation, h, hstate]

/-- Store for the C7 witness: a single live, unexpired location. -/
def locW7 : Location :=
  { id := "L", latitude := .fin 7, longitude := .fin 8, name := some "me",
    createdAt := 5, expiresAt := some 1000, isLive := some true,
    lastUpdated := some 5 }

def storeW7 : MemStorage :=
  { locations := [("L", locW7)], fleets := [], vehicles := [] }

/-- Witness for C7: updating the stored record keeps every frame field
and rewrites exactly the position and last-update fields; updating a
missing id leaves the store untouched. -/
theorem updateLocation_overwrites_position_only_witness :
    updateLocation storeW7 20 "L" ⟨.fin 40, .fin (-73)⟩ =
      (some { locW7 with latitude := .fin 40, longitude := .fin (-73),
                         lastUpdated := some 20 },
       { storeW7 with locations := (mset storeW7.locations "L"
          { locW7 with latitude := .fin 40, longitude := .fin (-73),
                       lastUpdated := some 20 }) }) ∧
    updateLocation storeW7 20 "missing" ⟨.fin 1, .fin 2⟩ =
      (none, storeW7) := by
  constructor
  · exact (updateLocation_overwrites_position_only storeW7 20 "L"
      ⟨.fin 40, .fin (-73)⟩).2 locW7 (by decide)
  · have h := (updateLocation_overwrites_position_only storeW7 20 "missing"
      ⟨.fin 1, .fin 2⟩).1 (by decide)
    rw [h]
    decide

/-! ### Claim C10: createLocation expiry and defaults -/

/-- **C10.** `createLocation` always assigns an expiry timestamp: with
`expiresInMinutes` supplied (schema-validated to 1..1440, carried here as
the positivity hypothesis) the expiry is creation time plus that many
minutes; omitted, it defaults to 1440 minutes (24h). The live flag
defaults to false when omitted and the last-update timestamp initially
equals the creation timestamp. -/
theorem createLocation_expiry_and_defaults
    (s : MemStorage) (now : ℕ) (id : String) (il : InsertLocation)
    (hmin : ∀ m, il.expiresInMinutes = some m → 1 ≤ m) :
    (createLocation s now id il).1.createdAt = now ∧
    (createLocation s now id il).1.lastUpdated = some now ∧
    (∀ m, il.expiresInMinutes = some m →
      (createLocation s now id il).1.expiresAt = some (now + m * 60 * 1000)) ∧
    (il.expiresInMinutes = none →
      (createLocation s now id il).1.expiresAt =
        some (now + 1440 * 60 * 1000)) ∧
    (il.isLive = none → (createLocation s now id il).1.isLive = some false) ∧
    (createLocation s now id il).1.expiresAt.isSome := by
  refine ⟨rfl, rfl, ?_, ?_, ?_, ?_⟩
  · intro m hm
    have hm1 : 1 ≤ m := hmin m hm
    have hm0 : ¬ m = 0 := by omega
    simp [createLocation, hm, hm0]
  · intro hm
    simp [createLocation, hm]
  · intro hl
    simp [createLocation, hl]
  · cases hm : il.expiresInMinutes <;> simp [createLocation, hm]

/-- Witness for C10: concrete creations with and without
`expiresInMinutes`. -/
theorem createLocation_expiry_and_defaults_witness :
    (createLocation MemStorage.empty 1000 "A"
      ⟨.fin 1, .fin 2, none, none, some 15⟩).1.expiresAt =
        some (1000 + 15 * 60 * 1000) ∧
    (createLocation MemStorage.empty 1000 "B"
      ⟨.fin 1, .fin 2, none, none, none⟩).1.expiresAt =
        some (1000 + 1440 * 60 * 1000) ∧
    (createLocation MemStorage.empty 1000 "B"
      ⟨.fin 1, .fin 2, none, none, none⟩).1.isLive = some false := by
  have hA := createLocation_expiry_and_defaults MemStorage.empty 1000 "A"
    ⟨.fin 1, .fin 2, none, none, some 15⟩ (by intro m hm; cases hm; decide)
  have hB := createLocation_expiry_and_defaults MemStorage.empty 1000 "B"
    ⟨.fin 1, .fin 2, none, none, none⟩ (by intro m hm; cases hm)
  exact ⟨hA.2.2.1 15 rfl, hB.2.2.2.1 rfl, hB.2.2.2.2.1 rfl⟩

/-! ### Claim C9: public fleet view strips the admin secret -/

/-- Replace the admin code stored for fleet `id` (leaving everything else
in place): used to state that the public endpoint's response does not
depend on the secret. -/
def withAdminCode (s : MemStorage) (id : String) (c : String) : MemStorage :=
  { s with fleets := (s.fleets.map
      (fun p => if p.1 = id then (p.1, { p.2 with adminCode := c }) else p)) }

/-- **C9.** The public read-by-id endpoint returns the stored fleet with
the `adminCode` field removed (the response type `PublicFleet` has no
admin-secret field) and all other fields unchanged; moreover the response
is unchanged under replacing the stored admin code by any other value, so
no information about the secret flows into the public view. -/
theorem apiGetFleetById_strips_adminCode
    (s : MemStorage) (now : ℕ) (id : String) :
    (∀ f, (getFleet s now id).1 = some f →
      (apiGetFleetById s now id).1 =
        some { id := f.id, name := f.name, createdAt := f.createdAt,
               expiresAt := f.expiresAt }) ∧
    (∀ c, (apiGetFleetById (withAdminCode s id c) now id).1 =
      (apiGetFleetById s now id).1) := by
  constructor
  · intro f h
    simp only [apiGetFleetById, h]
    rfl
  · intro c
    have hw : mget (withAdminCode s id c).fleets id =
        (mget s.fleets id).map (fun f => { f with adminCode := c }) := by
      unfold withAdminCode
      exact mget_map_entry s.fleets id (fun f => { f with adminCode := c })
    cases hm : mget s.fleets id with
    | none =>
      rw [hm] at hw
      simp [apiGetFleetById, getFleet, hw, hm]
    | some f =>
      rw [hm] at hw
      by_cases hexp : f.expiresAt < now
      · simp [apiGetFleetById, getFleet, hw, hm, hexp]
      · simp [apiGetFleetById, getFleet, hw, hm, hexp, stripAdminCode]

/-- Fleet and store for the C9 witness. -/
def fleetW9 : Fleet :=
  { id := "F9", name := "Fleet Nine", createdAt := 3, expiresAt := 500,
    adminCode := "secret" }

def storeW9 : MemStorage :=
  { locations := [], fleets := [("F9", fleetW9)], vehicles := [] }

/-- Witness for C9: the concrete response carries every public field of
the stored fleet and is identical after the secret is replaced. -/
theorem apiGetFleetById_strips_adminCode_witness :
    (apiGetFleetById storeW9 100 "F9").1 =
      some { id := "F9", name := "Fleet Nine", createdAt := 3,
             expiresAt := 500 } ∧
    (apiGetFleetById (withAdminCode storeW9 "F9" "other") 100 "F9").1 =
      (apiGetFleetById storeW9 100 "F9").1 := by
  have h := apiGetFleetById_strips_adminCode storeW9 100 "F9"
  exact ⟨h.1 fleetW9 (by decide), h.2 "other"⟩

/-! ### WebSocket layer (server/routes.ts)

One handler context per connection; connections are abstract ids (ℕ).
The per-connection closure variables (`subscribedLocationId`,
`sharingLocationId`, `subscribedFleetId`, `sharingVehicleId`) live in the
`conns` map of the server state; `openConns` is the set of connections
whose `readyState` is `OPEN`. Handlers return the new server state plus
the list of `(recipient, message)` sends they perform. JavaScript
truthiness guards on ids (`message.locationId`, `sharingLocationId`, …)
are modelled by the explicit empty-string checks. -/

/-- The four per-connection closure variables of the `wss.on("connection")`
handler. -/
structure ConnState where
  subscribedLocationId : Option String
  sharingLocationId : Option String
  subscribedFleetId : Option String
  sharingVehicleId : Option String
deriving DecidableEq

def ConnState.initial : ConnState := ⟨none, none, none, none⟩

/-- Server-side shared state: the storage singleton, the four connection
maps, the per-connection variables, and the set of open connections. -/
structure ServerState where
  storage : MemStorage
  locationSubscribers : List (String × List ℕ)
  sharerConnections : List (String × ℕ)
  fleetSubscribers : List (String × List ℕ)
  vehicleSharerConnections : List (String × ℕ)
  conns : List (ℕ × ConnState)
  openConns : List ℕ
deriving DecidableEq

def ServerState.initial : ServerState := ⟨MemStorage.empty, [], [], [], [], [], []⟩

/-- `readyState === WebSocket.OPEN`. -/
def isOpen (s : ServerState) (c : ℕ) : Bool := decide (c ∈ s.openConns)

/-- Parsed inbound client envelope; `other` covers unrecognized types. -/
inductive ClientMsg where
  | subscribe (locationId : String)
  | share (locationId : String)
  | update (data : Option LocationUpdate)
  | stop
  | subscribeFleet (fleetId : String)
  | shareVehicle (vehicleId : String)
  | updateVehicle (data : Option LocationUpdate)
  | stopVehicle
  | other
deriving DecidableEq

/-- Outbound server messages. -/
inductive ServerMsg where
  | location (data : Location)
  | stopped
  | vehicles (data : List Vehicle)
  | vehicleUpdate (data : Vehicle)
  | vehicleStopped (vehicleId : String)
deriving DecidableEq

/-- `subscribe` branch: record the subscription, add to the viewer set,
send the current location to the subscriber when it exists. -/
def handleSubscribe (s : ServerState) (c : ℕ) (cs : ConnState) (now : ℕ)
    (lid : String) : ServerState × List (ℕ × ServerMsg) :=
  if lid = "" then (s, []) else
  match (getLocation s.storage now lid).1 with
  | some loc =>
    ({ s with
        locationSubscribers := mset s.locationSubscribers lid
          (sadd ((mget s.locationSubscribers lid).getD []) c)
        conns := mset s.conns c { cs with subscribedLocationId := some lid }
        storage := (getLocation s.storage now lid).2 },
      [(c, ServerMsg.location loc)])
  | none =>
    ({ s with
        locationSubscribers := mset s.locationSubscribers lid
          (sadd ((mget s.locationSubscribers lid).getD []) c)
        conns := mset s.conns c { cs with subscribedLocationId := some lid }
        storage := (getLocation s.storage now lid).2 }, [])

/-- `share` branch: register (last-registration-wins) as the publisher. -/
def handleShare (s : ServerState) (c : ℕ) (cs : ConnState) (lid : String) :
    ServerState × List (ℕ × ServerMsg) :=
  if lid = "" then (s, []) else
  ({ s with
      sharerConnections := mset s.sharerConnections lid c
      conns := mset s.conns c { cs with sharingLocationId := some lid } }, [])

/-- `update` branch: guarded by `sharingLocationId`; validates the payload
with `locationUpdateSchema.safeParse`, applies `updateLocation`, and fans
the updated record out to every open subscriber. -/
def handleUpdate (s : ServerState) (c : ℕ) (cs : ConnState) (now : ℕ)
    (d : Option LocationUpdate) : ServerState × List (ℕ × ServerMsg) :=
  match cs.sharingLocationId with
  | none => (s, [])
  | some lid =>
    if lid = "" then (s, []) else
    match safeParseUpdate d with
    | none => (s, [])
    | some u =>
      match (updateLocation s.storage now lid u).1 with
      | none => ({ s with storage := (updateLocation s.storage now lid u).2 }, [])
      | some upd =>
        ({ s with storage := (updateLocation s.storage now lid u).2 },
          (((mget s.locationSubscribers lid).getD []).filter
            (fun sub => isOpen s sub)).map
            (fun sub => (sub, ServerMsg.location upd)))

/-- `stop` branch: refresh the record timestamp when it still exists,
notify open subscribers, unregister the publisher, clear the variable. -/
def handleStop (s : ServerState) (c : ℕ) (cs : ConnState) (now : ℕ) :
    ServerState × List (ℕ × ServerMsg) :=
  match cs.sharingLocationId with
  | none => (s, [])
  | some lid =>
    if lid = "" then (s, []) else
    let st2 :=
      match (getLocation s.storage now lid).1 with
      | some loc =>
        (updateLocation (getLocation s.storage now lid).2 now lid
          ⟨loc.latitude, loc.longitude⟩).2
      | none => (getLocation s.storage now lid).2
    ({ s with
        storage := st2
        sharerConnections := mdel s.sharerConnections lid
        conns := mset s.conns c { cs with sharingLocationId := none } },
      (((mget s.locationSubscribers lid).getD []).filter
        (fun sub => isOpen s sub)).map (fun sub => (sub, ServerMsg.stopped)))

/-- `subscribeFleet` branch: register the viewer and send the current
vehicle list (possibly empty) immediately. -/
def handleSubscribeFleet (s : ServerState) (c : ℕ) (cs : ConnState)
    (now : ℕ) (fid : String) : ServerState × List (ℕ × ServerMsg) :=
  if fid = "" then (s, []) else
  ({ s with
      fleetSubscribers := mset s.fleetSubscribers fid
        (sadd ((mget s.fleetSubscribers fid).getD []) c)
      conns := mset s.conns c { cs with subscribedFleetId := some fid }
      storage := (getVehiclesByFleet s.storage now fid).2 },
    [(c, ServerMsg.vehicles (getVehiclesByFleet s.storage now fid).1)])

/-- `shareVehicle` branch: register as the vehicle's publisher
(last-registration-wins) and mark the vehicle live. -/
def handleShareVehicle (s : ServerState) (c : ℕ) (cs : ConnState) (now : ℕ)
    (vid : String) : ServerState × List (ℕ × ServerMsg) :=
  if vid = "" then (s, []) else
  ({ s with
      vehicleSharerConnections := mset s.vehicleSharerConnections vid c
      storage := (updateVehicleLiveStatus s.storage now vid true).2
      conns := mset s.conns c { cs with sharingVehicleId := some vid } }, [])

/-- `updateVehicle` branch: guarded by `sharingVehicleId`; validates,
applies `updateVehicle`, and fans out to the open fleet subscribers. -/
def handleUpdateVehicle (s : ServerState) (c : ℕ) (cs : ConnState)
    (now : ℕ) (d : Option LocationUpdate) :
    ServerState × List (ℕ × ServerMsg) :=
  match cs.sharingVehicleId with
  | none => (s, [])
  | some vid =>
    if vid = "" then (s, []) else
    match safeParseUpdate d with
    | none => (s, [])
    | some u =>
      match (updateVehicle s.storage now vid u).1 with
      | none => ({ s with storage := (updateVehicle s.storage now vid u).2 }, [])
      | some upd =>
        ({ s with storage := (updateVehicle s.storage now vid u).2 },
          (((mget s.fleetSubscribers upd.fleetId).getD []).filter
            (fun sub => isOpen s sub)).map
            (fun sub => (sub, ServerMsg.vehicleUpdate upd)))

/-- `stopVehicle` branch. -/
def handleStopVehicle (s : ServerState) (c : ℕ) (cs : ConnState) (now : ℕ) :
    ServerState × List (ℕ × ServerMsg) :=
  match cs.sharingVehicleId with
  | none => (s, [])
  | some vid =>
    if vid = "" then (s, []) else
    match getVehicle s.storage vid with
    | some v =>
      ({ s with
          storage := (updateVehicleLiveStatus s.storage now vid false).2
          vehicleSharerConnections := mdel s.vehicleSharerConnections vid
          conns := mset s.conns c { cs with sharingVehicleId := none } },
        (((mget s.fleetSubscribers v.fleetId).getD []).filter
          (fun sub => isOpen s sub)).map
          (fun sub => (sub, ServerMsg.vehicleStopped vid)))
    | none =>
      ({ s with
          vehicleSharerConnections := mdel s.vehicleSharerConnections vid
          conns := mset s.conns c { cs with sharingVehicleId := none } }, [])

/-- The `ws.on("message")` dispatcher. A message for an unknown
connection, or of an unrecognized type, does nothing. -/
def handleMessage (s : ServerState) (c : ℕ) (now : ℕ) (msg : ClientMsg) :
    ServerState × List (ℕ × ServerMsg) :=
  match mget s.conns c with
  | none => (s, [])
  | some cs =>
    match msg with
    | .subscribe lid => handleSubscribe s c cs now lid
    | .share lid => handleShare s c cs lid
    | .update d => handleUpdate s c cs now d
    | .stop => handleStop s c cs now
    | .subscribeFleet fid => handleSubscribeFleet s c cs now fid
    | .shareVehicle vid => handleShareVehicle s c cs now vid
    | .updateVehicle d => handleUpdateVehicle s c cs now d
    | .stopVehicle => handleStopVehicle s c cs now
    | .other => (s, [])

/-- Close-handler step 1: remove the viewer from its location channel,
pruning an emptied entry. -/
def cleanupLocationSubscriber (s : ServerState) (c : ℕ) (cs : ConnState) :
    ServerState :=
  match cs.subscribedLocationId with
  | none => s
  | some lid =>
    if lid = "" then s else
    match mget s.locationSubscribers lid with
    | none => s
    | some subs =>
      if sdel subs c = [] then
        { s with locationSubscribers := mdel s.locationSubscribers lid }
      else
        { s with locationSubscribers :=
            (mset s.locationSubscribers lid (sdel subs c)) }

/-- Close-handler step 2: unregister a solo sharer and notify every open
subscriber with `stopped`. The location record in the store is not
touched. -/
def cleanupSoloSharer (s : ServerState) (cs : ConnState) :
    ServerState × List (ℕ × ServerMsg) :=
  match cs.sharingLocationId with
  | none => (s, [])
  | some lid =>
    if lid = "" then (s, []) else
    ({ s with sharerConnections := mdel s.sharerConnections lid },
      (((mget s.locationSubscribers lid).getD []).filter
        (fun sub => isOpen s sub)).map (fun sub => (sub, ServerMsg.stopped)))

/-- Close-handler step 3: remove the viewer from its fleet channel. -/
def cleanupFleetSubscriber (s : ServerState) (c : ℕ) (cs : ConnState) :
    ServerState :=
  match cs.subscribedFleetId with
  | none => s
  | some fid =>
    if fid = "" then s else
    match mget s.fleetSubscribers fid with
    | none => s
    | some subs =>
      if sdel subs c = [] then
        { s with fleetSubscribers := mdel s.fleetSubscribers fid }
      else
        { s with fleetSubscribers := mset s.fleetSubscribers fid (sdel subs c) }

/-- Close-handler step 4: unregister a vehicle sharer; when the vehicle
record still exists, flip its live flag off and notify the open fleet
subscribers with `vehicleStopped`. -/
def cleanupVehicleSharer (s : ServerState) (now : ℕ) (cs : ConnState) :
    ServerState × List (ℕ × ServerMsg) :=
  match cs.sharingVehicleId with
  | none => (s, [])
  | some vid =>
    if vid = "" then (s, []) else
    match getVehicle s.storage vid with
    | some v =>
      ({ s with
          storage := (updateVehicleLiveStatus s.storage now vid false).2
          vehicleSharerConnections := mdel s.vehicleSharerConnections vid },
        (((mget s.fleetSubscribers v.fleetId).getD []).filter
          (fun sub => isOpen s sub)).map
          (fun sub => (sub, ServerMsg.vehicleStopped vid)))
    | none =>
      ({ s with vehicleSharerConnections :=
          (mdel s.vehicleSharerConnections vid) }, [])

/-- The `ws.on("close")` handler: the socket is no longer open, its
closure state is gone, and the four cleanups run in source order. -/
def handleClose (s : ServerState) (c : ℕ) (now : ℕ) :
    ServerState × List (ℕ × ServerMsg) :=
  match mget s.conns c with
  | none => ({ s with openConns := sdel s.openConns c }, [])
  | some cs =>
    let s0 :=
      { s with
        openConns := sdel s.openConns c
        conns := mdel s.conns c }
    let s1 := cleanupLocationSubscriber s0 c cs
    let r2 := cleanupSoloSharer s1 cs
    let s3 := cleanupFleetSubscriber r2.1 c cs
    let r4 := cleanupVehicleSharer s3 now cs
    (r4.1, r2.2 ++ r4.2)

/-- A fresh `wss.on("connection")`: new closure variables, socket open. -/
def newConn (s : ServerState) (c : ℕ) : ServerState :=
  if mhas s.conns c || s.openConns.contains c then s
  else
    { s with
      conns := s.conns ++ [(c, ConnState.initial)]
      openConns := s.openConns ++ [c] }

/-- Storage calls reachable from the REST endpoints (they touch only the
entity store, never the connection registries). -/
inductive StorageOp where
  | getLoc (now : ℕ) (id : String)
  | createLoc (now : ℕ) (id : String) (il : InsertLocation)
  | updateLoc (now : ℕ) (id : String) (u : LocationUpdate)
  | deleteLoc (id : String)
  | getFlt (now : ℕ) (id : String)
  | createFlt (now : ℕ) (id adminCode : String) (ifl : InsertFleet)
  | getVehByFleet (now : ℕ) (fid : String)
  | createVeh (now : ℕ) (id shareCode : String) (iv : InsertVehicle)
  | deleteVeh (id : String)

def applyStorageOp (op : StorageOp) (st : MemStorage) : MemStorage :=
  match op with
  | .getLoc now id => (getLocation st now id).2
  | .createLoc now id il => (createLocation st now id il).2
  | .updateLoc now id u => (updateLocation st now id u).2
  | .deleteLoc id => (deleteLocation st id).2
  | .getFlt now id => (getFleet st now id).2
  | .createFlt now id ac ifl => (createFleet st now id ac ifl).2
  | .getVehByFleet now fid => (getVehiclesByFleet st now fid).2
  | .createVeh now id sc iv => (createVehicle st now id sc iv).2
  | .deleteVeh id => (deleteVehicle st id).2

/-- Server states reachable from boot by connections, messages, closes
and REST-driven storage operations. -/
inductive Reachable : ServerState → Prop where
  | init : Reachable ServerState.initial
  | connect (s : ServerState) (c : ℕ) (h : Reachable s) : Reachable (newConn s c)
  | message (s : ServerState) (c now : ℕ) (m : ClientMsg) (h : Reachable s) :
      Reachable (handleMessage s c now m).1
  | close (s : ServerState) (c now : ℕ) (h : Reachable s) :
      Reachable (handleClose s c now).1
  | rest (s : ServerState) (op : StorageOp) (h : Reachable s) :
      Reachable { s with storage := applyStorageOp op s.storage }

/-! ### Claim C6: at most one publisher per channel key -/

/-- The publisher registries have duplicate-free key lists, so each
channel key holds at most one publisher connection. -/
def PublisherKeysNodup (s : ServerState) : Prop :=
  (s.sharerConnections.map Prod.fst).Nodup ∧
  (s.vehicleSharerConnections.map Prod.fst).Nodup

theorem pub_nodup_handleMessage (s : ServerState) (c now : ℕ)
    (m : ClientMsg) (h : PublisherKeysNodup s) :
    PublisherKeysNodup (handleMessage s c now m).1 := by
  cases hc : mget s.conns c with
  | none =>
    have he : handleMessage s c now m = (s, []) := by
      unfold handleMessage
      rw [hc]
    rw [he]
    exact h
  | some cs =>
    cases m with
    | subscribe lid =>
      have he : handleMessage s c now (.subscribe lid) =
          handleSubscribe s c cs now lid := by
        unfold handleMessage
        rw [hc]
      rw [he]
      unfold handleSubscribe
      repeat' split
      all_goals exact h
    | share lid =>
      have he : handleMessage s c now (.share lid) =
          handleShare s c cs lid := by
        unfold handleMessage
        rw [hc]
      rw [he]
      unfold handleShare
      split
      · exact h
      · exact ⟨nodup_keys_mset _ _ _ h.1, h.2⟩
    | update d =>
      have he : handleMessage s c now (.update d) =
          handleUpdate s c cs now d := by
        unfold handleMessage
        rw [hc]
      rw [he]
      unfold handleUpdate
      repeat' split
      all_goals exact h
    | stop =>
      have he : handleMessage s c now .stop = handleStop s c cs now := by
        unfold handleMessage
        rw [hc]
      rw [he]
      unfold handleStop
      repeat' split
      all_goals first
        | exact h
        | exact ⟨nodup_keys_mdel _ _ h.1, h.2⟩
    | subscribeFleet fid =>
      have he : handleMessage s c now (.subscribeFleet fid) =
          handleSubscribeFleet s c cs now fid := by
        unfold handleMessage
        rw [hc]
      rw [he]
      unfold handleSubscribeFleet
      repeat' split
      all_goals exact h
    | shareVehicle vid =>
      have he : handleMessage s c now (.shareVehicle vid) =
          handleShareVehicle s c cs now vid := by
        unfold handleMessage
        rw [hc]
      rw [he]
      unfold handleShareVehicle
      split
      · exact h
      · exact ⟨h.1, nodup_keys_mset _ _ _ h.2⟩
    | updateVehicle d =>
      have he : handleMessage s c now (.updateVehicle d) =
          handleUpdateVehicle s c cs now d := by
        unfold handleMessage
        rw [hc]
      rw [he]
      unfold handleUpdateVehicle
      repeat' split
      all_goals exact h
    | stopVehicle =>
      have he : handleMessage s c now .stopVehicle =
          handleStopVehicle s c cs now := by
        unfold handleMessage
        rw [hc]
      rw [he]
      unfold handleStopVehicle
      repeat' split
      all_goals first
        | exact h
        | exact ⟨h.1, nodup_keys_mdel _ _ h.2⟩
    | other =>
      have he : handleMessage s c now .other = (s, []) := by
        unfold handleMessage
        rw [hc]
      rw [he]
      exact h

theorem pubs_cleanupLocationSubscriber (s : ServerState) (c : ℕ)
    (cs : ConnState) :
    (cleanupLocationSubscriber s c cs).sharerConnections =
      s.sharerConnections ∧
    (cleanupLocationSubscriber s c cs).vehicleSharerConnections =
      s.vehicleSharerConnections := by
  unfold cleanupLocationSubscriber
  repeat' split
  all_goals exact ⟨rfl, rfl⟩

theorem pubs_cleanupFleetSubscriber (s : ServerState) (c : ℕ)
    (cs : ConnState) :
    (cleanupFleetSubscriber s c cs).sharerConnections =
      s.sharerConnections ∧
    (cleanupFleetSubscriber s c cs).vehicleSharerConnections =
      s.vehicleSharerConnections := by
  unfold cleanupFleetSubscriber
  repeat' split
  all_goals exact ⟨rfl, rfl⟩

theorem pub_nodup_cleanupSoloSharer (s : ServerState) (cs : ConnState)
    (h : PublisherKeysNodup s) :
    PublisherKeysNodup (cleanupSoloSharer s cs).1 := by
  unfold cleanupSoloSharer
  repeat' split
  all_goals first
    | exact h
    | exact ⟨nodup_keys_mdel _ _ h.1, h.2⟩

theorem pub_nodup_cleanupVehicleSharer (s : ServerState) (now : ℕ)
    (cs : ConnState) (h : PublisherKeysNodup s) :
    PublisherKeysNodup (cleanupVehicleSharer s now cs).1 := by
  unfold cleanupVehicleSharer
  repeat' split
  all_goals first
    | exact h
    | exact ⟨h.1, nodup_keys_mdel _ _ h.2⟩

theorem pub_nodup_handleClose (s : ServerState) (c now : ℕ)
    (h : PublisherKeysNodup s) : PublisherKeysNodup (handleClose s c now).1 := by
  unfold handleClose
  cases hc : mget s.conns c with
  | none => exact h
  | some cs =>
    have h0 : PublisherKeysNodup
        { s with openConns := sdel s.openConns c, conns := mdel s.conns c } := h
    have h1 := pubs_cleanupLocationSubscriber
      { s with openConns := sdel s.openConns c, conns := mdel s.conns c } c cs
    have h2 : PublisherKeysNodup (cleanupLocationSubscriber
        { s with openConns := sdel s.openConns c, conns := mdel s.conns c } c cs) :=
      ⟨by rw [h1.1]; exact h0.1, by rw [h1.2]; exact h0.2⟩
    have h3 := pub_nodup_cleanupSoloSharer _ cs h2
    have h4 := pubs_cleanupFleetSubscriber
      (cleanupSoloSharer (cleanupLocationSubscriber
        { s with openConns := sdel s.openConns c, conns := mdel s.conns c } c cs) cs).1 c cs
    have h5 : PublisherKeysNodup (cleanupFleetSubscriber
        (cleanupSoloSharer (cleanupLocationSubscriber
          { s with openConns := sdel s.openConns c, conns := mdel s.conns c } c cs) cs).1 c cs) :=
      ⟨by rw [h4.1]; exact h3.1, by rw [h4.2]; exact h3.2⟩
    exact pub_nodup_cleanupVehicleSharer _ now cs h5

theorem pub_nodup_newConn (s : ServerState) (c : ℕ)
    (h : PublisherKeysNodup s) : PublisherKeysNodup (newConn s c) := by
  unfold newConn
  split
  · exact h
  · exact h

theorem pub_nodup_reachable (s : ServerState) (h : Reachable s) :
    PublisherKeysNodup s := by
  induction h with
  | init => exact ⟨List.nodup_nil, List.nodup_nil⟩
  | connect s c h ih => exact pub_nodup_newConn s c ih
  | message s c now m h ih => exact pub_nodup_handleMessage s c now m ih
  | close s c now h ih => exact pub_nodup_handleClose s c now ih
  | rest s op h ih => exact ih

/-- **C6.** At every reachable server state, each channel key maps to at
most one publisher connection (duplicate-free registry keys, for both the
solo and the vehicle registry), and handling a `share`/`shareVehicle`
registration for a key maps that key to exactly the new connection —
replacing, not duplicating, any prior publisher. -/
theorem publisher_registration_last_wins (s : ServerState)
    (h : Reachable s) :
    PublisherKeysNodup s ∧
    (∀ c cs now lid, mget s.conns c = some cs → ¬ lid = "" →
      mget (handleMessage s c now (.share lid)).1.sharerConnections lid =
        some c ∧
      (∀ c2, (lid, c2) ∈
          (handleMessage s c now (.share lid)).1.sharerConnections →
        c2 = c)) ∧
    (∀ c cs now vid, mget s.conns c = some cs → ¬ vid = "" →
      mget (handleMessage s c now
          (.shareVehicle vid)).1.vehicleSharerConnections vid = some c ∧
      (∀ c2, (vid, c2) ∈
          (handleMessage s c now
            (.shareVehicle vid)).1.vehicleSharerConnections →
        c2 = c)) := by
  refine ⟨pub_nodup_reachable s h, ?_, ?_⟩
  · intro c cs now lid hc hlid
    have he : (handleMessage s c now (.share lid)).1.sharerConnections =
        mset s.sharerConnections lid c := by
      simp [handleMessage, hc, handleShare, hlid]
    refine ⟨by rw [he]; exact mget_mset_self _ _ _, fun c2 hmem => ?_⟩
    rw [he] at hmem
    exact mem_mset_key_eq _ _ _ _ hmem
  · intro c cs now vid hc hvid
    have he : (handleMessage s c now
        (.shareVehicle vid)).1.vehicleSharerConnections =
        mset s.vehicleSharerConnections vid c := by
      simp [handleMessage, hc, handleShareVehicle, hvid]
    refine ⟨by rw [he]; exact mget_mset_self _ _ _, fun c2 hmem => ?_⟩
    rw [he] at hmem
    exact mem_mset_key_eq _ _ _ _ hmem

/-- Witness for C6: from the freshly booted server with connection 1
attached (a concretely reachable state), registering twice for "L1" from
connections 1 and 2 leaves exactly the later publisher registered. -/
theorem publisher_registration_last_wins_witness :
    mget (handleMessage (newConn ServerState.initial 1) 1 0
      (.share "L1")).1.sharerConnections "L1" = some 1 ∧
    ∀ c2, ("L1", c2) ∈ (handleMessage (newConn ServerState.initial 1) 1 0
      (.share "L1")).1.sharerConnections → c2 = 1 := by
  have h := publisher_registration_last_wins (newConn ServerState.initial 1)
    (Reachable.connect ServerState.initial 1 Reachable.init)
  have h2 := h.2.1 1 ConnState.initial 0 "L1" (by decide) (by decide)
  exact ⟨h2.1, h2.2⟩

/-! ### Claim C8: update before publish-start is silently dropped -/

/-- **C8.** For a connection that has not announced `share` or
`shareVehicle` (both sharing variables still unset), an inbound `update`
or `updateVehicle` message leaves the server state completely unchanged
and produces no outbound messages — in particular the store is untouched,
no subscriber hears anything, and the connection's open status is
unaffected. -/
theorem update_before_publish_start_dropped (s : ServerState) (c now : ℕ)
    (cs : ConnState) (hc : mget s.conns c = some cs)
    (hl : cs.sharingLocationId = none) (hv : cs.sharingVehicleId = none) :
    (∀ d, handleMessage s c now (.update d) = (s, []) ∧
      isOpen (handleMessage s c now (.update d)).1 c = isOpen s c) ∧
    (∀ d, handleMessage s c now (.updateVehicle d) = (s, []) ∧
      isOpen (handleMessage s c now (.updateVehicle d)).1 c = isOpen s c) := by
  constructor
  · intro d
    have he : handleMessage s c now (.update d) = (s, []) := by
      simp [handleMessage, hc, handleUpdate, hl]
    exact ⟨he, by rw [he]⟩
  · intro d
    have he : handleMessage s c now (.updateVehicle d) = (s, []) := by
      simp [handleMessage, hc, handleUpdateVehicle, hv]
    exact ⟨he, by rw [he]⟩

/-- Witness for C8 on a concrete fresh connection that never announced a
publish role. -/
theorem update_before_publish_start_dropped_witness :
    handleMessage (newConn ServerState.initial 3) 3 7
      (.update (some ⟨.fin 1, .fin 2⟩)) = (newConn ServerState.initial 3, []) ∧
    handleMessage (newConn ServerState.initial 3) 3 7
      (.updateVehicle (some ⟨.fin 1, .fin 2⟩)) =
      (newConn ServerState.initial 3, []) := by
  have h := update_before_publish_start_dropped (newConn ServerState.initial 3)
    3 7 ConnState.initial (by decide) rfl rfl
  exact ⟨(h.1 (some ⟨.fin 1, .fin 2⟩)).1, (h.2 (some ⟨.fin 1, .fin 2⟩)).1⟩

/-! ### Claim C4: payload validation on publish-update -/

/-- Live location record used by the C4 state. -/
def locX4 : Location :=
  { id := "L1", latitude := .fin 0, longitude := .fin 0, name := none,
    createdAt := 0, expiresAt := some 1000000, isLive := some true,
    lastUpdated := some 0 }

/-- Server state with connection 1 publishing location "L1" and
connection 2 subscribed to it, both open. -/
def stateX4 : ServerState :=
  { storage := { locations := [("L1", locX4)], fleets := [], vehicles := [] }
    locationSubscribers := [("L1", [2])]
    sharerConnections := [("L1", 1)]
    fleetSubscribers := []
    vehicleSharerConnections := []
    conns := [(1, ⟨none, some "L1", none, none⟩),
              (2, ⟨some "L1", none, none, none⟩)]
    openConns := [1, 2] }

/-- **C4, counterexample.** The claim says payloads with an infinite
latitude or longitude are rejected and dropped without mutating the
store or notifying subscribers. But `z.number()` without `.finite()`
accepts `Infinity`: sending `{latitude: Infinity, longitude: 0}` from the
registered publisher mutates the stored record to an infinite latitude
and fans the update out to the subscriber. -/
theorem infinite_coordinate_passes_validation :
    (mget (handleMessage stateX4 1 5
        (.update (some ⟨JsVal.inf, JsVal.fin 0⟩))).1.storage.locations
      "L1").map Location.latitude = some JsVal.inf ∧
    (handleMessage stateX4 1 5
        (.update (some ⟨JsVal.inf, JsVal.fin 0⟩))).2 =
      [(2, ServerMsg.location
        ({ locX4 with
            latitude := JsVal.inf
            longitude := JsVal.fin 0
            lastUpdated := some 5 }))] := by
  refine ⟨by decide, by decide⟩

/-- **C4, amended.** A `update`/`updateVehicle` payload whose latitude or
longitude is of non-number type or `NaN` fails `z.number()` validation
and is dropped with no state change at all (no store mutation, no fan-out,
connection left as it was); but the validation does not require
finiteness, so infinite values pass (see the counterexample). The second
conjunct characterises exactly which payloads fail validation. -/
theorem nonNumber_or_nan_payload_dropped :
    (∀ (s : ServerState) (c now : ℕ) (d : Option LocationUpdate),
      safeParseUpdate d = none →
      handleMessage s c now (.update d) = (s, []) ∧
      handleMessage s c now (.updateVehicle d) = (s, [])) ∧
    (∀ u : LocationUpdate, safeParseUpdate (some u) = none ↔
      (u.latitude = .nan ∨ u.latitude = .nonNum ∨
        u.longitude = .nan ∨ u.longitude = .nonNum)) := by
  constructor
  · intro s c now d hd
    constructor
    · cases hc : mget s.conns c with
      | none => simp [handleMessage, hc]
      | some cs =>
        cases hl : cs.sharingLocationId with
        | none => simp [handleMessage, hc, handleUpdate, hl]
        | some lid =>
          by_cases hlid : lid = ""
          · simp [handleMessage, hc, handleUpdate, hl, hlid]
          · simp [handleMessage, hc, handleUpdate, hl, hlid, hd]
    · cases hc : mget s.conns c with
      | none => simp [handleMessage, hc]
      | some cs =>
        cases hl : cs.sharingVehicleId with
        | none => simp [handleMessage, hc, handleUpdateVehicle, hl]
        | some vid =>
          by_cases hvid : vid = ""
          · simp [handleMessage, hc, handleUpdateVehicle, hl, hvid]
          · simp [handleMessage, hc, handleUpdateVehicle, hl, hvid, hd]
  · intro u
    rcases u with ⟨lat, lng⟩
    cases lat <;> cases lng <;> simp [safeParseUpdate, zodNumberOk]

/-- Witness for the amended C4: a NaN latitude sent by the registered
publisher of "L1" is dropped with the state unchanged. -/
theorem nonNumber_or_nan_payload_dropped_witness :
    handleMessage stateX4 1 5 (.update (some ⟨JsVal.nan, JsVal.fin 0⟩)) =
      (stateX4, []) ∧
    (safeParseUpdate (some ⟨JsVal.nan, JsVal.fin 0⟩) = none ↔
      ((JsVal.nan = JsVal.nan ∨ JsVal.nan = JsVal.nonNum ∨
        JsVal.fin 0 = JsVal.nan ∨ JsVal.fin 0 = JsVal.nonNum))) := by
  constructor
  · exact (nonNumber_or_nan_payload_dropped.1 stateX4 1 5
      (some ⟨JsVal.nan, JsVal.fin 0⟩) (by decide)).1
  · exact nonNumber_or_nan_payload_dropped.2 ⟨JsVal.nan, JsVal.fin 0⟩

/-! ### Claim C1: publisher disconnect cleanup -/

/-- Live location record used by the C1 state. -/
def locX1 : Location :=
  { id := "L1", latitude := .fin 0, longitude := .fin 0, name := none,
    createdAt := 0, expiresAt := some 1000000, isLive := some true,
    lastUpdated := some 0 }

/-- Server state with connection 1 publishing location "L1" (record live
in the store) and connection 2 subscribed, both open. -/
def stateX1 : ServerState :=
  { storage := { locations := [("L1", locX1)], fleets := [], vehicles := [] }
    locationSubscribers := [("L1", [2])]
    sharerConnections := [("L1", 1)]
    fleetSubscribers := []
    vehicleSharerConnections := []
    conns := [(1, ⟨none, some "L1", none, none⟩),
              (2, ⟨some "L1", none, none, none⟩)]
    openConns := [1, 2] }

/-- **C1, counterexample.** When the solo sharer's transport closes, the
close handler does notify the open subscriber with `stopped`, but it does
not touch the store: the location record is bit-for-bit unchanged and its
live flag is still `true`, contradicting the claim that the close handler
sets the record's live flag to false. -/
theorem solo_close_does_not_clear_live_flag :
    (handleClose stateX1 1 5).2 = [(2, ServerMsg.stopped)] ∧
    mget (handleClose stateX1 1 5).1.storage.locations "L1" = some locX1 ∧
    locX1.isLive = some true := by
  refine ⟨by decide, by decide, by decide⟩

/-- **C1, amended.** When a publisher's transport closes while registered:
every subscriber of the channel that is still open receives the
stopped/offline notification and the publisher registration is removed.
For a fleet vehicle sharer whose vehicle record still exists, the
vehicle's live flag is additionally set to false; for a solo location
sharer the store is left completely untouched — in particular the
location's live flag is not cleared (see the counterexample). -/
theorem close_notifies_and_flags (s : ServerState) (c now : ℕ) :
    (∀ lid, mget s.conns c = some ⟨none, some lid, none, none⟩ →
      ¬ lid = "" →
      (handleClose s c now).1.storage = s.storage ∧
      mget (handleClose s c now).1.sharerConnections lid = none ∧
      (∀ sub, sub ∈ (mget s.locationSubscribers lid).getD [] →
        sub ∈ sdel s.openConns c →
        (sub, ServerMsg.stopped) ∈ (handleClose s c now).2)) ∧
    (∀ vid v, mget s.conns c = some ⟨none, none, none, some vid⟩ →
      ¬ vid = "" → getVehicle s.storage vid = some v →
      (mget (handleClose s c now).1.storage.vehicles vid).map
        Vehicle.isLive = some false ∧
      mget (handleClose s c now).1.vehicleSharerConnections vid = none ∧
      (∀ sub, sub ∈ (mget s.fleetSubscribers v.fleetId).getD [] →
        sub ∈ sdel s.openConns c →
        (sub, ServerMsg.vehicleStopped vid) ∈ (handleClose s c now).2)) := by
  constructor
  · intro lid hc hlid
    refine ⟨?_, ?_, ?_⟩
    · simp [handleClose, hc, cleanupLocationSubscriber, cleanupSoloSharer,
        cleanupFleetSubscriber, cleanupVehicleSharer, hlid]
    · simp [handleClose, hc, cleanupLocationSubscriber, cleanupSoloSharer,
        cleanupFleetSubscriber, cleanupVehicleSharer, hlid, mget_mdel_self]
    · intro sub hsub hopen
      simp only [handleClose, hc, cleanupLocationSubscriber,
        cleanupSoloSharer, cleanupFleetSubscriber, cleanupVehicleSharer,
        if_neg hlid, List.append_nil]
      exact List.mem_map.mpr ⟨sub,
        List.mem_filter.mpr ⟨hsub, by simp [isOpen]; exact hopen⟩, rfl⟩
  · intro vid v hc hvid hveh
    have hgv : mget s.storage.vehicles vid = some v := hveh
    refine ⟨?_, ?_, ?_⟩
    · simp [handleClose, hc, cleanupLocationSubscriber, cleanupSoloSharer,
        cleanupFleetSubscriber, cleanupVehicleSharer, hvid, getVehicle,
        hgv, updateVehicleLiveStatus, mget_mset_self]
    · simp [handleClose, hc, cleanupLocationSubscriber, cleanupSoloSharer,
        cleanupFleetSubscriber, cleanupVehicleSharer, hvid, getVehicle,
        hgv, updateVehicleLiveStatus, mget_mdel_self]
    · intro sub hsub hopen
      simp only [handleClose, hc, cleanupLocationSubscriber,
        cleanupSoloSharer, cleanupFleetSubscriber, cleanupVehicleSharer,
        if_neg hvid, getVehicle, hgv, List.nil_append]
      exact List.mem_map.mpr ⟨sub,
        List.mem_filter.mpr ⟨hsub, by simp [isOpen]; exact hopen⟩, rfl⟩

/-- Vehicle record used by the C1 witness state. -/
def vehW1 : Vehicle :=
  { id := "V1", fleetId := "F1", name := "Buggy", color := "#ef4444",
    shareCode := "sc", latitude := none, longitude := none, isLive := true,
    lastUpdated := some 0 }

/-- Server state with connection 1 publishing vehicle "V1" and
connection 2 subscribed to its fleet "F1", both open. -/
def stateW1 : ServerState :=
  { storage := { locations := [], fleets := [], vehicles := [("V1", vehW1)] }
    locationSubscribers := []
    sharerConnections := []
    fleetSubscribers := [("F1", [2])]
    vehicleSharerConnections := [("V1", 1)]
    conns := [(1, ⟨none, none, none, some "V1"⟩),
              (2, ⟨none, none, some "F1", none⟩)]
    openConns := [1, 2] }

/-- Witness for the amended C1: closing the vehicle sharer flips the
vehicle's live flag off and notifies the open fleet subscriber. -/
theorem close_notifies_and_flags_witness :
    (mget (handleClose stateW1 1 9).1.storage.vehicles "V1").map
      Vehicle.isLive = some false ∧
    (2, ServerMsg.vehicleStopped "V1") ∈ (handleClose stateW1 1 9).2 := by
  have h := (close_notifies_and_flags stateW1 1 9).2 "V1" vehW1
    (by decide) (by decide) (by decide)
  exact ⟨h.1, h.2.2 2 (by decide) (by decide)⟩

end ShareMyLocation
